import Mathlib

/-!
Verification of the Newton-Raphson root finder and the Rachford-Rice flash
model from `src/Python/newton.py`.

The Python program works on machine floats; following the specification,
which states the contract over the reals, we embed the arithmetic in `ℚ`
(exact rational arithmetic), so every definition below is executable and
every concrete run of the solver can be checked by evaluation.

* `newton_raphson` embeds the Python function `newton_raphson`; its
  `for`-loop with early `return`/`raise` becomes the fuel recursion
  `newtonLoop`.  The two `raise ValueError` sites become the two failure
  constructors of `SolverResult`: `derivativeTooSmall` for the derivative
  floor and `convergenceFailure` (carrying `max_iter`, which the Python
  message interpolates) for iteration exhaustion.
* `max_iter` is an integer (Python `range(max_iter)` is empty for
  non-positive arguments, which `Int.toNat` reproduces).
* `newtonLoopN` / `newton_raphson_count` additionally count the executed
  loop passes; each pass evaluates `func` and `dfunc` exactly once, so the
  count is also the number of evaluations of `func`.
* `newtonIter` is the specification-level sequence of Newton iterates
  `x, step x, step (step x), ...` used to state the loop's behaviour.
* `rachford_rice` and `d_rachford_rice` embed the two Python closures over
  the module-level data `z`, `K`; `objective` and `objective_derivative`
  are the same expressions parameterized by an arbitrary `FlashProblem`,
  as described in the specification's data model.
-/

/-- Outcome of a `newton_raphson` call: a converged root, or one of the two
terminal failures (the Python `raise ValueError` sites). -/
inductive SolverResult where
  | root (x : ℚ)
  | derivativeTooSmall
  | convergenceFailure (max_iter : ℤ)
  deriving DecidableEq

/-- The loop body of `newton_raphson`, with the remaining iteration budget as
fuel.  Mirrors the Python source line by line: evaluate `f_x` and `df_x`,
fail if `|df_x| < 1e-10`, compute the Newton update, return it if the step
is below `tol`, otherwise continue from `x_new`. -/
def newtonLoop (func dfunc : ℚ → ℚ) (tol : ℚ) (max_iter : ℤ) : ℕ → ℚ → SolverResult
  | 0, _ => .convergenceFailure max_iter
  | fuel + 1, x =>
    let f_x := func x
    let df_x := dfunc x
    if |df_x| < 1 / 10 ^ 10 then .derivativeTooSmall
    else
      let x_new := x - f_x / df_x
      if |x_new - x| < tol then .root x_new
      else newtonLoop func dfunc tol max_iter fuel x_new

/-- Embedding of the Python function `newton_raphson(func, dfunc, x0, tol,
max_iter)`: run the loop from `x0` with `max_iter` iterations of budget
(`range(max_iter)` is empty when `max_iter ≤ 0`, hence `Int.toNat`). -/
def newton_raphson (func dfunc : ℚ → ℚ) (x0 tol : ℚ) (max_iter : ℤ) : SolverResult :=
  newtonLoop func dfunc tol max_iter max_iter.toNat x0

/-- The default of the `tol` parameter in the Python signature (`tol=1e-6`). -/
def tol_default : ℚ := 1 / 10 ^ 6

/-- The default of the `max_iter` parameter in the Python signature
(`max_iter=100`). -/
def max_iter_default : ℤ := 100

/-- `newtonLoop` instrumented with a counter `c` of executed loop passes.
Each pass evaluates `func` once and `dfunc` once, so the final count is also
the number of evaluations of `func`. -/
def newtonLoopN (func dfunc : ℚ → ℚ) (tol : ℚ) (max_iter : ℤ) :
    ℕ → ℚ → ℕ → SolverResult × ℕ
  | 0, _, c => (.convergenceFailure max_iter, c)
  | fuel + 1, x, c =>
    let f_x := func x
    let df_x := dfunc x
    if |df_x| < 1 / 10 ^ 10 then (.derivativeTooSmall, c + 1)
    else
      let x_new := x - f_x / df_x
      if |x_new - x| < tol then (.root x_new, c + 1)
      else newtonLoopN func dfunc tol max_iter fuel x_new (c + 1)

/-- `newton_raphson` together with the number of loop passes it performed. -/
def newton_raphson_count (func dfunc : ℚ → ℚ) (x0 tol : ℚ) (max_iter : ℤ) :
    SolverResult × ℕ :=
  newtonLoopN func dfunc tol max_iter max_iter.toNat x0 0

/-- One Newton update `x - f(x)/f'(x)` (step 3 of the specified algorithm). -/
def newtonStep (func dfunc : ℚ → ℚ) (x : ℚ) : ℚ :=
  x - func x / dfunc x

/-- The specification-level sequence of Newton iterates starting at `x0`. -/
def newtonIter (func dfunc : ℚ → ℚ) (x0 : ℚ) : ℕ → ℚ
  | 0 => x0
  | n + 1 => newtonStep func dfunc (newtonIter func dfunc x0 n)

/-- The Rachford-Rice parameterization from the specification's data model:
feed mole fractions `z` and equilibrium ratios `K`, one per component. -/
structure FlashProblem where
  z : List ℚ
  K : List ℚ

/-- The flash objective of a general `FlashProblem`, exactly the expression
of the Python `rachford_rice` closure:
`sum(z[i] * (K[i] - 1) / (1 + V * (K[i] - 1)) for i in range(len(z)))`. -/
def objective (p : FlashProblem) (V : ℚ) : ℚ :=
  ((List.range p.z.length).map
    (fun i => p.z.getD i 0 * (p.K.getD i 0 - 1) / (1 + V * (p.K.getD i 0 - 1)))).sum

/-- The derivative of the flash objective, exactly the expression of the
Python `d_rachford_rice` closure:
`sum(-z[i] * (K[i] - 1)**2 / (1 + V * (K[i] - 1))**2 for i in range(len(z)))`. -/
def objective_derivative (p : FlashProblem) (V : ℚ) : ℚ :=
  ((List.range p.z.length).map
    (fun i => -p.z.getD i 0 * (p.K.getD i 0 - 1) ^ 2 / (1 + V * (p.K.getD i 0 - 1)) ^ 2)).sum

/-- The module-level feed composition `z = [0.1, 0.2, 0.3, 0.4]`. -/
def z : List ℚ := [1/10, 2/10, 3/10, 4/10]

/-- The module-level equilibrium ratios `K = [4.2, 1.75, 0.74, 0.34]`. -/
def K : List ℚ := [42/10, 175/100, 74/100, 34/100]

/-- The Python closure `rachford_rice(V)` over the module-level `z`, `K`. -/
def rachford_rice (V : ℚ) : ℚ := objective ⟨z, K⟩ V

/-- The Python closure `d_rachford_rice(V)` over the module-level `z`, `K`. -/
def d_rachford_rice (V : ℚ) : ℚ := objective_derivative ⟨z, K⟩ V

/-- The module-level initial guess `V0 = 0`. -/
def V0 : ℚ := 0

/-- The driver call
`newton_raphson(rachford_rice, d_rachford_rice, V0)`, with `tol` and
`max_iter` left at their defaults. -/
def V_solution : SolverResult :=
  newton_raphson rachford_rice d_rachford_rice V0 tol_default max_iter_default

/-- Boolean check that a solver outcome is a root satisfying `p`. -/
def SolverResult.checkRoot (p : ℚ → Bool) : SolverResult → Bool
  | .root x => p x
  | _ => false

/-! ### Helper lemmas about the iteration -/

lemma newtonIter_zero (func dfunc : ℚ → ℚ) (x0 : ℚ) :
    newtonIter func dfunc x0 0 = x0 := rfl

lemma newtonIter_shift (func dfunc : ℚ → ℚ) (x0 : ℚ) (n : ℕ) :
    newtonIter func dfunc x0 (n + 1)
      = newtonIter func dfunc (newtonStep func dfunc x0) n := by
  induction n with
  | zero => rfl
  | succ n ih => rw [newtonIter, ih, newtonIter]

/-- After `n` loop passes in which the derivative floor never triggers and the
step never meets the tolerance, the instrumented loop sits at the `n`-th
Newton iterate, with `n` consumed from the fuel and `n` added to the count. -/
lemma newtonLoopN_advance (func dfunc : ℚ → ℚ) (tol : ℚ) (m : ℤ) :
    ∀ (n fuel : ℕ) (x0 : ℚ) (c : ℕ), n ≤ fuel →
    (∀ k < n, ¬ |dfunc (newtonIter func dfunc x0 k)| < 1 / 10 ^ 10 ∧
        ¬ |newtonIter func dfunc x0 (k + 1) - newtonIter func dfunc x0 k| < tol) →
    newtonLoopN func dfunc tol m fuel x0 c
      = newtonLoopN func dfunc tol m (fuel - n) (newtonIter func dfunc x0 n) (c + n) := by
  intro n
  induction n with
  | zero => intro fuel x0 c _ _; rfl
  | succ n ih =>
    intro fuel x0 c hle hgood
    obtain ⟨fuel, rfl⟩ : ∃ f, fuel = f + 1 := ⟨fuel - 1, by omega⟩
    have h0 := hgood 0 (by omega)
    rw [newtonIter_zero] at h0
    have hstep : newtonIter func dfunc x0 1 = newtonStep func dfunc x0 := rfl
    rw [hstep] at h0
    have hbody : newtonLoopN func dfunc tol m (fuel + 1) x0 c
        = newtonLoopN func dfunc tol m fuel (newtonStep func dfunc x0) (c + 1) := by
      simp only [newtonLoopN, newtonStep]
      rw [if_neg h0.1, if_neg (by simpa [newtonStep] using h0.2)]
    rw [hbody, ih fuel (newtonStep func dfunc x0) (c + 1) (by omega)]
    · have harr : ∀ k, newtonIter func dfunc (newtonStep func dfunc x0) k
          = newtonIter func dfunc x0 (k + 1) := fun k => (newtonIter_shift func dfunc x0 k).symm
      rw [harr n]
      have : fuel + 1 - (n + 1) = fuel - n := by omega
      rw [this]
      have : c + 1 + n = c + (n + 1) := by omega
      rw [this]
    · intro k hk
      have := hgood (k + 1) (by omega)
      rw [newtonIter_shift func dfunc x0 k, newtonIter_shift func dfunc x0 (k + 1)] at this
      exact this

/-- The instrumented loop computes the same result as the plain loop. -/
lemma newtonLoopN_fst (func dfunc : ℚ → ℚ) (tol : ℚ) (m : ℤ) :
    ∀ (fuel : ℕ) (x : ℚ) (c : ℕ),
    (newtonLoopN func dfunc tol m fuel x c).1 = newtonLoop func dfunc tol m fuel x := by
  intro fuel
  induction fuel with
  | zero => intro x c; rfl
  | succ fuel ih =>
    intro x c
    simp only [newtonLoopN, newtonLoop]
    split
    · rfl
    · split
      · rfl
      · exact ih _ _

lemma newton_raphson_count_fst (func dfunc : ℚ → ℚ) (x0 tol : ℚ) (m : ℤ) :
    (newton_raphson_count func dfunc x0 tol m).1 = newton_raphson func dfunc x0 tol m :=
  newtonLoopN_fst func dfunc tol m m.toNat x0 0

/-- A Python generator sum over `range(n)` is the mathematical sum over
`Finset.range n`. -/
lemma list_range_map_sum (n : ℕ) (f : ℕ → ℚ) :
    ((List.range n).map f).sum = ∑ i ∈ Finset.range n, f i := by
  induction n with
  | zero => rfl
  | succ n ih =>
    rw [List.range_succ, Finset.sum_range_succ, List.map_append, List.sum_append, ih]
    simp

lemma checkRoot_spec (p : ℚ → Bool) (r : SolverResult)
    (h : r.checkRoot p = true) : ∃ x, r = .root x ∧ p x = true := by
  cases r with
  | root x => exact ⟨x, rfl, h⟩
  | derivativeTooSmall => simp [SolverResult.checkRoot] at h
  | convergenceFailure m => simp [SolverResult.checkRoot] at h

/-- If the first `n` passes neither trip the derivative floor nor converge,
the derivative at iterate `n` is above the floor, and the `n`-th Newton step
meets the tolerance, the solver returns the updated iterate after `n + 1`
passes. -/
lemma newton_raphson_count_root (func dfunc : ℚ → ℚ) (x0 tol : ℚ) (m : ℤ) (n : ℕ)
    (hn : n < m.toNat)
    (hdf : ∀ k ≤ n, ¬ |dfunc (newtonIter func dfunc x0 k)| < 1 / 10 ^ 10)
    (hsteps : ∀ k < n,
      ¬ |newtonIter func dfunc x0 (k + 1) - newtonIter func dfunc x0 k| < tol)
    (hconv : |newtonIter func dfunc x0 (n + 1) - newtonIter func dfunc x0 n| < tol) :
    newton_raphson_count func dfunc x0 tol m
      = (.root (newtonIter func dfunc x0 (n + 1)), n + 1) := by
  unfold newton_raphson_count
  rw [newtonLoopN_advance func dfunc tol m n m.toNat x0 0 (by omega)
      (fun k hk => ⟨hdf k (by omega), hsteps k hk⟩)]
  obtain ⟨fuel, hfuel⟩ : ∃ f, m.toNat - n = f + 1 := ⟨m.toNat - n - 1, by omega⟩
  rw [hfuel]
  have hiter : newtonIter func dfunc x0 (n + 1)
      = newtonIter func dfunc x0 n
        - func (newtonIter func dfunc x0 n) / dfunc (newtonIter func dfunc x0 n) := rfl
  simp only [newtonLoopN]
  rw [if_neg (hdf n le_rfl), if_pos (by rw [← hiter]; exact hconv), ← hiter,
    Nat.zero_add]

/-- If the first `n` passes neither trip the derivative floor nor converge
and `|f'(iterate n)| < 1e-10`, the solver stops with `derivativeTooSmall`
after exactly `n + 1` passes. -/
lemma newton_raphson_count_deriv (func dfunc : ℚ → ℚ) (x0 tol : ℚ) (m : ℤ) (n : ℕ)
    (hn : n < m.toNat)
    (hgood : ∀ k < n, ¬ |dfunc (newtonIter func dfunc x0 k)| < 1 / 10 ^ 10 ∧
        ¬ |newtonIter func dfunc x0 (k + 1) - newtonIter func dfunc x0 k| < tol)
    (hfloor : |dfunc (newtonIter func dfunc x0 n)| < 1 / 10 ^ 10) :
    newton_raphson_count func dfunc x0 tol m = (.derivativeTooSmall, n + 1) := by
  unfold newton_raphson_count
  rw [newtonLoopN_advance func dfunc tol m n m.toNat x0 0 (by omega) hgood]
  obtain ⟨fuel, hfuel⟩ : ∃ f, m.toNat - n = f + 1 := ⟨m.toNat - n - 1, by omega⟩
  rw [hfuel]
  simp only [newtonLoopN]
  rw [if_pos hfloor, Nat.zero_add]

/-- If no pass among the full budget of `m.toNat` passes trips the floor or
converges, the solver stops with `convergenceFailure m` after consuming the
whole budget. -/
lemma newton_raphson_count_exhaust (func dfunc : ℚ → ℚ) (x0 tol : ℚ) (m : ℤ)
    (hgood : ∀ k < m.toNat, ¬ |dfunc (newtonIter func dfunc x0 k)| < 1 / 10 ^ 10 ∧
        ¬ |newtonIter func dfunc x0 (k + 1) - newtonIter func dfunc x0 k| < tol) :
    newton_raphson_count func dfunc x0 tol m = (.convergenceFailure m, m.toNat) := by
  unfold newton_raphson_count
  rw [newtonLoopN_advance func dfunc tol m m.toNat m.toNat x0 0 le_rfl hgood]
  simp [newtonLoopN]

/-! ### Claim theorems -/

/-- C1: for every `func`, `dfunc`, `x0`, `tolerance > 0` and `max_iter > 0`,
`newton_raphson` iterates exactly the Newton update `x_new = x - f(x)/f'(x)`
starting from `x0`, and on the first pass `n` whose step satisfies
`|x_new - x| < tol` it returns `x_new` (the updated iterate
`newtonIter (n + 1)`, not the previous one); the signature defaults are
`tol = 1e-6` and `max_iter = 100`. -/
theorem newton_raphson_returns_first_converged_update
    (func dfunc : ℚ → ℚ) (x0 tol : ℚ) (m : ℤ) (n : ℕ)
    (htol : 0 < tol) (hm : 0 < m) (hn : n < m.toNat)
    (hdf : ∀ k ≤ n, ¬ |dfunc (newtonIter func dfunc x0 k)| < 1 / 10 ^ 10)
    (hsteps : ∀ k < n,
      ¬ |newtonIter func dfunc x0 (k + 1) - newtonIter func dfunc x0 k| < tol)
    (hconv : |newtonIter func dfunc x0 (n + 1) - newtonIter func dfunc x0 n| < tol) :
    newton_raphson func dfunc x0 tol m = .root (newtonIter func dfunc x0 (n + 1)) ∧
    tol_default = 1 / 10 ^ 6 ∧ max_iter_default = 100 := by
  refine ⟨?_, rfl, rfl⟩
  rw [← newton_raphson_count_fst,
    newton_raphson_count_root func dfunc x0 tol m n hn hdf hsteps hconv]

unseal Rat.add Rat.sub Rat.mul Rat.inv in
/-- Witness for C1: for `f(x) = x^2 - 2`, `f'(x) = 2x`, `x0 = 1`, `tol = 1`,
the very first update `x1 = 3/2` already satisfies `|x1 - x0| = 1/2 < 1`. -/
theorem newton_raphson_returns_first_converged_update_witness :
    (0 < (1 : ℚ)) ∧ 0 < (100 : ℤ) ∧ 0 < (100 : ℤ).toNat ∧
    |newtonIter (fun x => x ^ 2 - 2) (fun x => 2 * x) 1 1
        - newtonIter (fun x => x ^ 2 - 2) (fun x => 2 * x) 1 0| < 1 ∧
    newton_raphson (fun x => x ^ 2 - 2) (fun x => 2 * x) 1 1 100
      = .root (newtonIter (fun x => x ^ 2 - 2) (fun x => 2 * x) 1 1) :=
  ⟨by decide, by decide, by decide, by decide,
    (newton_raphson_returns_first_converged_update (fun x => x ^ 2 - 2) (fun x => 2 * x)
      1 1 100 0 (by decide) (by decide) (by decide) (by decide) (by decide) (by decide)).1⟩

/-- C2: if the loop reaches iterate `n` (no earlier pass tripped the floor or
converged) and `|f'(iterate n)| < 1e-10`, `newton_raphson` fails with
`derivativeTooSmall` at once, performing exactly `n + 1` loop passes (hence
`n + 1` evaluations of `func`); in particular at the very first iterate
(`n = 0`) it performs a single pass, evaluating `func` once and applying no
Newton update. -/
theorem newton_raphson_derivative_floor_immediate
    (func dfunc : ℚ → ℚ) (x0 tol : ℚ) (m : ℤ) (n : ℕ)
    (hn : n < m.toNat)
    (hgood : ∀ k < n, ¬ |dfunc (newtonIter func dfunc x0 k)| < 1 / 10 ^ 10 ∧
        ¬ |newtonIter func dfunc x0 (k + 1) - newtonIter func dfunc x0 k| < tol)
    (hfloor : |dfunc (newtonIter func dfunc x0 n)| < 1 / 10 ^ 10) :
    newton_raphson func dfunc x0 tol m = .derivativeTooSmall ∧
    newton_raphson_count func dfunc x0 tol m = (.derivativeTooSmall, n + 1) := by
  have h := newton_raphson_count_deriv func dfunc x0 tol m n hn hgood hfloor
  exact ⟨by rw [← newton_raphson_count_fst, h], h⟩

unseal Rat.add Rat.sub Rat.mul Rat.inv in
/-- Witness for C2: a derivative that is identically `0 < 1e-10` makes the
solver fail on the very first pass, with exactly one pass performed. -/
theorem newton_raphson_derivative_floor_immediate_witness :
    (0 : ℕ) < (100 : ℤ).toNat ∧
    |(fun _ : ℚ => (0 : ℚ)) (newtonIter (fun x => x ^ 2) (fun _ => 0) 3 0)| < 1 / 10 ^ 10 ∧
    newton_raphson (fun x => x ^ 2) (fun _ => 0) 3 (1 / 10 ^ 6) 100 = .derivativeTooSmall ∧
    newton_raphson_count (fun x => x ^ 2) (fun _ => 0) 3 (1 / 10 ^ 6) 100
      = (.derivativeTooSmall, 1) :=
  ⟨by decide, by decide,
    (newton_raphson_derivative_floor_immediate (fun x => x ^ 2) (fun _ => 0)
      3 (1 / 10 ^ 6) 100 0 (by decide) (by decide) (by decide)).1,
    (newton_raphson_derivative_floor_immediate (fun x => x ^ 2) (fun _ => 0)
      3 (1 / 10 ^ 6) 100 0 (by decide) (by decide) (by decide)).2⟩

/-- C3: if all `max_iter` passes complete without the derivative floor
triggering and without any step meeting the tolerance, `newton_raphson`
fails with `convergenceFailure` carrying the attempted `max_iter`, having
performed all `max_iter` passes. -/
theorem newton_raphson_exhausts_to_convergence_failure
    (func dfunc : ℚ → ℚ) (x0 tol : ℚ) (m : ℤ)
    (hm : 0 < m)
    (hgood : ∀ k < m.toNat, ¬ |dfunc (newtonIter func dfunc x0 k)| < 1 / 10 ^ 10 ∧
        ¬ |newtonIter func dfunc x0 (k + 1) - newtonIter func dfunc x0 k| < tol) :
    newton_raphson func dfunc x0 tol m = .convergenceFailure m ∧
    newton_raphson_count func dfunc x0 tol m = (.convergenceFailure m, m.toNat) := by
  have h := newton_raphson_count_exhaust func dfunc x0 tol m hgood
  exact ⟨by rw [← newton_raphson_count_fst, h], h⟩

unseal Rat.add Rat.sub Rat.mul Rat.inv in
/-- Witness for C3: `max_iter = 1` with `f = 1`, `f' = 1`, `x0 = 0`: the
single Newton step has size `1 ≥ 1e-6`, so the call fails with
`convergenceFailure 1`. -/
theorem newton_raphson_exhausts_to_convergence_failure_witness :
    (0 : ℤ) < 1 ∧
    newton_raphson (fun _ => 1) (fun _ => 1) 0 (1 / 10 ^ 6) 1 = .convergenceFailure 1 ∧
    newton_raphson_count (fun _ => 1) (fun _ => 1) 0 (1 / 10 ^ 6) 1
      = (.convergenceFailure 1, (1 : ℤ).toNat) :=
  ⟨by decide,
    (newton_raphson_exhausts_to_convergence_failure (fun _ => 1) (fun _ => 1)
      0 (1 / 10 ^ 6) 1 (by decide) (by decide)).1,
    (newton_raphson_exhausts_to_convergence_failure (fun _ => 1) (fun _ => 1)
      0 (1 / 10 ^ 6) 1 (by decide) (by decide)).2⟩

/-- C9: with `max_iter ≤ 0` the Python loop body (`for i in range(max_iter)`)
is never entered: `newton_raphson` fails at once with `convergenceFailure`
carrying that `max_iter`, performs zero loop passes (so `func` and `dfunc`
are never evaluated), and the outcome does not depend on `func`/`dfunc` at
all. -/
theorem newton_raphson_nonpositive_max_iter
    (func dfunc : ℚ → ℚ) (x0 tol : ℚ) (m : ℤ) (hm : m ≤ 0) :
    newton_raphson_count func dfunc x0 tol m = (.convergenceFailure m, 0) ∧
    newton_raphson func dfunc x0 tol m = .convergenceFailure m ∧
    ∀ g dg : ℚ → ℚ, newton_raphson func dfunc x0 tol m = newton_raphson g dg x0 tol m := by
  have htn : m.toNat = 0 := Int.toNat_of_nonpos hm
  refine ⟨?_, ?_, ?_⟩
  · rw [newton_raphson_count, htn]; rfl
  · rw [newton_raphson, htn]; rfl
  · intro g dg; rw [newton_raphson, newton_raphson, htn]; rfl

/-- Witness for C9: `max_iter = -3` yields `convergenceFailure (-3)` with
zero passes, for any pair of callables. -/
theorem newton_raphson_nonpositive_max_iter_witness :
    ((-3 : ℤ) ≤ 0) ∧
    newton_raphson_count (fun x => x) (fun _ => 1) 7 (1 / 10 ^ 6) (-3)
      = (.convergenceFailure (-3), 0) ∧
    newton_raphson (fun x => x) (fun _ => 1) 7 (1 / 10 ^ 6) (-3)
      = newton_raphson (fun _ => 2) (fun _ => 3) 7 (1 / 10 ^ 6) (-3) :=
  ⟨by decide,
    (newton_raphson_nonpositive_max_iter (fun x => x) (fun _ => 1)
      7 (1 / 10 ^ 6) (-3) (by decide)).1,
    (newton_raphson_nonpositive_max_iter (fun x => x) (fun _ => 1)
      7 (1 / 10 ^ 6) (-3) (by decide)).2.2 (fun _ => 2) (fun _ => 3)⟩

/-- C4: for every `FlashProblem` with `len z = len K` and every `V` at which
no denominator vanishes, `objective` and `objective_derivative` compute
exactly the specified sums over the component index set `0..len z - 1`
(both iterate over `range(len(z))` in the same fixed order). -/
theorem objective_eq_spec_sums (p : FlashProblem) (V : ℚ)
    (hlen : p.z.length = p.K.length)
    (hden : ∀ i < p.z.length, 1 + V * (p.K.getD i 0 - 1) ≠ 0) :
    objective p V = ∑ i ∈ Finset.range p.z.length,
      p.z.getD i 0 * (p.K.getD i 0 - 1) / (1 + V * (p.K.getD i 0 - 1)) ∧
    objective_derivative p V = ∑ i ∈ Finset.range p.z.length,
      -p.z.getD i 0 * (p.K.getD i 0 - 1) ^ 2 / (1 + V * (p.K.getD i 0 - 1)) ^ 2 :=
  ⟨list_range_map_sum _ _, list_range_map_sum _ _⟩

unseal Rat.add Rat.sub Rat.mul Rat.inv in
/-- Witness for C4: the repository's own `z`/`K` data at `V = 0` (where every
denominator is `1`). -/
theorem objective_eq_spec_sums_witness :
    (z.length = K.length) ∧
    (∀ i < z.length, 1 + 0 * (K.getD i 0 - 1) ≠ 0) ∧
    objective ⟨z, K⟩ 0 = ∑ i ∈ Finset.range z.length,
      z.getD i 0 * (K.getD i 0 - 1) / (1 + 0 * (K.getD i 0 - 1)) ∧
    objective_derivative ⟨z, K⟩ 0 = ∑ i ∈ Finset.range z.length,
      -z.getD i 0 * (K.getD i 0 - 1) ^ 2 / (1 + 0 * (K.getD i 0 - 1)) ^ 2 :=
  ⟨by decide, by decide,
    (objective_eq_spec_sums ⟨z, K⟩ 0 (by decide) (by decide)).1,
    (objective_eq_spec_sums ⟨z, K⟩ 0 (by decide) (by decide)).2⟩

unseal Rat.add Rat.sub Rat.mul Rat.inv in
/-- Counterexample to C5 as stated: `f(x) = x / 10^11` is smooth, `r = 0` is
a root, and its derivative `f'(r) = 1e-11` is nonzero, yet `newton_raphson`
seeded at `x0 = r` (default tolerance and budget) does not return `r`: the
derivative floor `|f'(r)| < 1e-10` fires first. -/
theorem newton_raphson_seeded_at_root_counterexample :
    (fun x : ℚ => x / 10 ^ 11) 0 = 0 ∧
    (fun _ : ℚ => (1 : ℚ) / 10 ^ 11) 0 ≠ 0 ∧
    newton_raphson (fun x => x / 10 ^ 11) (fun _ => 1 / 10 ^ 11) 0
      tol_default max_iter_default = .derivativeTooSmall ∧
    newton_raphson (fun x => x / 10 ^ 11) (fun _ => 1 / 10 ^ 11) 0
      tol_default max_iter_default ≠ .root 0 :=
  ⟨by decide, by decide, by decide, by decide⟩

/-- C5 (amended): the conclusion holds once `f_derivative(r) ≠ 0` is
strengthened to the code's actual guard `|f_derivative(r)| ≥ 1e-10`: seeding
at a root `r` of `func` then returns `r` on the first pass, since
`x_new = r - 0 / f'(r) = r` and `|x_new - r| = 0 < tol`. -/
theorem newton_raphson_seeded_at_root (func dfunc : ℚ → ℚ) (r tol : ℚ) (m : ℤ)
    (hroot : func r = 0) (hdf : ¬ |dfunc r| < 1 / 10 ^ 10)
    (htol : 0 < tol) (hm : 0 < m) :
    newton_raphson func dfunc r tol m = .root r ∧
    newton_raphson_count func dfunc r tol m = (.root r, 1) := by
  have hstep : newtonIter func dfunc r 1 = r := by
    simp [newtonIter, newtonStep, hroot]
  have hconv : |newtonIter func dfunc r 1 - newtonIter func dfunc r 0| < tol := by
    rw [hstep, newtonIter_zero]; simpa using htol
  have h := newton_raphson_count_root func dfunc r tol m 0 (by omega)
    (fun k hk => by
      have hk0 : k = 0 := Nat.le_zero.mp hk
      subst hk0; simpa [newtonIter] using hdf)
    (fun k hk => absurd hk (by omega)) hconv
  rw [hstep] at h
  exact ⟨by rw [← newton_raphson_count_fst, h], h⟩

unseal Rat.add Rat.sub Rat.mul Rat.inv in
/-- Witness for the amended C5: `f(x) = x^2 - 4` at its root `r = 2` with
`f'(2) = 4` returns `2` on the first pass. -/
theorem newton_raphson_seeded_at_root_witness :
    ((fun x : ℚ => x ^ 2 - 4) 2 = 0) ∧
    ¬ |(fun x : ℚ => 2 * x) 2| < 1 / 10 ^ 10 ∧
    (0 : ℚ) < 1 / 10 ^ 6 ∧ (0 : ℤ) < 100 ∧
    newton_raphson (fun x => x ^ 2 - 4) (fun x => 2 * x) 2 (1 / 10 ^ 6) 100 = .root 2 ∧
    newton_raphson_count (fun x => x ^ 2 - 4) (fun x => 2 * x) 2 (1 / 10 ^ 6) 100
      = (.root 2, 1) :=
  ⟨by decide, by decide, by decide, by decide,
    (newton_raphson_seeded_at_root (fun x => x ^ 2 - 4) (fun x => 2 * x)
      2 (1 / 10 ^ 6) 100 (by decide) (by decide) (by decide) (by decide)).1,
    (newton_raphson_seeded_at_root (fun x => x ^ 2 - 4) (fun x => 2 * x)
      2 (1 / 10 ^ 6) 100 (by decide) (by decide) (by decide) (by decide)).2⟩

/-- C8: `newton_raphson` is deterministic and referentially transparent: two
calls with identical `x0`, `tol`, `max_iter` and pointwise-identical
(deterministic) callables produce identical results.  Side effects do not
exist in this embedding: the solver is a pure function of its arguments. -/
theorem newton_raphson_deterministic (f₁ f₂ df₁ df₂ : ℚ → ℚ) (x0 tol : ℚ) (m : ℤ)
    (hf : ∀ x, f₁ x = f₂ x) (hdf : ∀ x, df₁ x = df₂ x) :
    newton_raphson f₁ df₁ x0 tol m = newton_raphson f₂ df₂ x0 tol m := by
  have h1 : f₁ = f₂ := funext hf
  have h2 : df₁ = df₂ := funext hdf
  rw [h1, h2]

unseal Rat.add Rat.sub Rat.mul Rat.inv in
/-- Witness for C8: the two syntactically different but pointwise equal
implementations `x^2 - 4` and `x*x - 4` drive the solver to the same
result. -/
theorem newton_raphson_deterministic_witness :
    (∀ x : ℚ, x ^ 2 - 4 = x * x - 4) ∧
    newton_raphson (fun x => x ^ 2 - 4) (fun x => 2 * x) 3 (1 / 10 ^ 6) 100
      = newton_raphson (fun x => x * x - 4) (fun x => 2 * x) 3 (1 / 10 ^ 6) 100 :=
  ⟨fun x => by rw [pow_two],
    newton_raphson_deterministic (fun x => x ^ 2 - 4) (fun x => x * x - 4)
      (fun x => 2 * x) (fun x => 2 * x) 3 (1 / 10 ^ 6) 100
      (fun x => by show x ^ 2 - 4 = x * x - 4; rw [pow_two]) (fun _ => rfl)⟩

/-- C10: for every `FlashProblem` with nonnegative feed fractions and every
`V` at which no denominator vanishes, each summand of
`objective_derivative` is non-positive, and so is the whole sum: the
objective is non-increasing on every interval of its domain. -/
theorem objective_derivative_nonpos (p : FlashProblem) (V : ℚ)
    (hlen : p.z.length = p.K.length)
    (hz : ∀ i < p.z.length, 0 ≤ p.z.getD i 0)
    (hden : ∀ i < p.z.length, 1 + V * (p.K.getD i 0 - 1) ≠ 0) :
    (∀ i < p.z.length,
      -p.z.getD i 0 * (p.K.getD i 0 - 1) ^ 2 / (1 + V * (p.K.getD i 0 - 1)) ^ 2 ≤ 0) ∧
    objective_derivative p V ≤ 0 := by
  have hterm : ∀ i < p.z.length,
      -p.z.getD i 0 * (p.K.getD i 0 - 1) ^ 2 / (1 + V * (p.K.getD i 0 - 1)) ^ 2 ≤ 0 := by
    intro i hi
    apply div_nonpos_iff.mpr
    refine Or.inr ⟨?_, sq_nonneg _⟩
    have h1 := hz i hi
    nlinarith [sq_nonneg (p.K.getD i 0 - 1)]
  refine ⟨hterm, ?_⟩
  rw [objective_derivative, list_range_map_sum]
  exact Finset.sum_nonpos fun i hi => hterm i (Finset.mem_range.mp hi)

unseal Rat.add Rat.sub Rat.mul Rat.inv in
/-- Witness for C10: a two-component problem at `V = 0`, where the
derivative evaluates to `-9/10 ≤ 0`. -/
theorem objective_derivative_nonpos_witness :
    ([(1 : ℚ)/10, 2/10].length = [(3 : ℚ), 1/2].length) ∧
    (∀ i < [(1 : ℚ)/10, 2/10].length, 0 ≤ [(1 : ℚ)/10, 2/10].getD i 0) ∧
    (∀ i < [(1 : ℚ)/10, 2/10].length, 1 + 0 * ([(3 : ℚ), 1/2].getD i 0 - 1) ≠ 0) ∧
    objective_derivative ⟨[1/10, 2/10], [3, 1/2]⟩ 0 ≤ 0 :=
  ⟨by decide, by decide, by decide,
    (objective_derivative_nonpos ⟨[1/10, 2/10], [3, 1/2]⟩ 0
      (by decide) (by decide) (by decide)).2⟩

set_option maxRecDepth 10000 in
unseal Rat.add Rat.sub Rat.mul Rat.inv in
/-- C6: for the module data `z = [0.1,0.2,0.3,0.4]`,
`K = [4.2,1.75,0.74,0.34]`, initial guess `V0 = 0` and the default
tolerance/budget, the driver call succeeds with a vapor fraction `V` whose
residual satisfies `|objective(V)| < 1e-5` and which lies strictly inside
`(1/(1 - K_max), 1/(1 - K_min))`; the first two conjuncts certify that
`K_max = 4.2` and `K_min = 0.34` for this `K` set. -/
theorem V_solution_converges :
    (42/10 ∈ K ∧ ∀ k ∈ K, k ≤ 42/10) ∧
    (34/100 ∈ K ∧ ∀ k ∈ K, 34/100 ≤ k) ∧
    ∃ V : ℚ, V_solution = .root V ∧
      |rachford_rice V| < 1 / 10 ^ 5 ∧
      1 / (1 - 42/10) < V ∧ V < 1 / (1 - 34/100) := by
  refine ⟨⟨by decide, by decide⟩, ⟨by decide, by decide⟩, ?_⟩
  obtain ⟨V, hV, hp⟩ := checkRoot_spec
    (fun V => decide (|rachford_rice V| < 1 / 10 ^ 5 ∧
      1 / (1 - 42/10) < V ∧ V < 1 / (1 - 34/100))) V_solution (by decide)
  exact ⟨V, hV, of_decide_eq_true hp⟩

set_option maxRecDepth 10000 in
unseal Rat.add Rat.sub Rat.mul Rat.inv in
/-- C7: for `f(x) = x^2 - 2`, `f'(x) = 2x`, `x0 = 1` with the default
tolerance and budget, the solver returns `886731088897/627013566048` after
5 < 10 loop passes, and that value is within the default tolerance `1e-6`
of `√2`. -/
theorem newton_raphson_sqrt_two :
    newton_raphson (fun x => x ^ 2 - 2) (fun x => 2 * x) 1 tol_default max_iter_default
      = .root (886731088897 / 627013566048) ∧
    newton_raphson_count (fun x => x ^ 2 - 2) (fun x => 2 * x) 1 tol_default max_iter_default
      = (.root (886731088897 / 627013566048), 5) ∧
    (5 : ℕ) < 10 ∧
    |(886731088897 / 627013566048 : ℝ) - Real.sqrt 2| < 1 / 10 ^ 6 := by
  refine ⟨by decide, by decide, by norm_num, ?_⟩
  have h1 : Real.sqrt 2 < 886731088897 / 627013566048 := by
    rw [Real.sqrt_lt' (by norm_num : (0:ℝ) < 886731088897 / 627013566048)]
    norm_num
  have h2 : (886731088897 / 627013566048 - 1 / 10 ^ 6 : ℝ) < Real.sqrt 2 := by
    rw [Real.lt_sqrt (by norm_num : (0:ℝ) ≤ 886731088897 / 627013566048 - 1 / 10 ^ 6)]
    norm_num
  rw [abs_sub_lt_iff]
  constructor <;> nlinarith [Real.sqrt_nonneg 2]
